import Mathlib

/-!
Verification development for the MidEx Cup scoring pipeline (`app.py`).

The Python source is shallowly embedded: spreadsheet cells are strings
(`gspread.get_all_values` returns strings), a raw position cell that may
also be numeric or absent is modelled by `CellValue`, Python `str.strip`
by `pyStrip`, the pandas data frames of normalized rows by lists of
`ResultRow`, the Python dicts keyed by sheet name and player name by
insertion-ordered association lists, and a raised exception by
`Except.error`.  The external spreadsheet fetch is a parameter
`fetch : String → Except String (List (List String))`.
-/

/-- Raw cell value as seen by `parse_position`: a string, a number, or an
absent value (Python `None`). -/
inductive CellValue where
  | str (s : String)
  | num (n : Int)
  | null
deriving DecidableEq, Repr

/-- Python `str.strip` on the character list: drop whitespace from both ends. -/
def stripChars (l : List Char) : List Char :=
  ((l.dropWhile Char.isWhitespace).reverse.dropWhile Char.isWhitespace).reverse

/-- Python `str.strip` lifted to `String`. -/
def pyStrip (s : String) : String :=
  ⟨stripChars s.data⟩

/-- Numeric value of a digit string, as computed by Python `int` on the
match of the regex group `(\d+)`: on digit characters, `c.toNat - 48` is
the digit value, and the fold is base-10 positional evaluation. -/
def digitsVal (l : List Char) : Int :=
  l.foldl (fun acc c => acc * 10 + ((c.toNat - 48 : Nat) : Int)) 0

/-- Embedding of `parse_position` (`app.py` lines 48-53): non-strings give
`None`; a string is stripped, the regex `^(\d+)` extracts the leading digit
run, and its integer value is returned when the run is non-empty. -/
def parse_position (pos_str : CellValue) : Option Int :=
  match pos_str with
  | .str s =>
    match (pyStrip s).data.takeWhile Char.isDigit with
    | [] => none
    | ds => some (digitsVal ds)
  | _ => none

/-- One row of the normalized per-event data frame, columns
`["Position", "Name", "Score"]` in that order (`app.py` line 114). -/
structure ResultRow where
  position : String
  name : String
  score : String
deriving DecidableEq, Repr

/-- The pure normalization core of `load_event_results` (`app.py` lines
96-115): an empty grid or a first row with fewer than 4 columns yields the
empty frame; otherwise each row contributes `(row[1], row[0], row[3])`
stripped, and rows with fewer than 4 columns are skipped by the
`IndexError` handler. -/
def normalize_rows (data : List (List String)) : List ResultRow :=
  match data with
  | [] => []
  | first :: _ =>
    if first.length < 4 then []
    else data.filterMap (fun row =>
      match row with
      | a :: b :: _ :: d :: _ => some ⟨pyStrip b, pyStrip a, pyStrip d⟩
      | _ => none)

/-- Embedding of `load_event_results` (`app.py` lines 90-115) with the
spreadsheet fetch abstracted: a fetch failure propagates as an exception. -/
def load_event_results (fetch : String → Except String (List (List String)))
    (sheet_name : String) : Except String (List ResultRow) :=
  match fetch sheet_name with
  | .error err => .error err
  | .ok data => .ok (normalize_rows data)

/-- `EVENT_TABS` (`app.py` lines 11-24), as the insertion-ordered
association list of (sheet name, event type) pairs of the Python dict. -/
def EVENT_TABS : List (String × String) :=
  [("May Stableford", "Standard Event"),
   ("Rover Medal", "Major"),
   ("June Medal", "Elevated Event"),
   ("Stableford Handicap Trophy", "Major"),
   ("Club Championships (r1)", "Playoff Event"),
   ("Club Championships (r2)", "Playoff Event"),
   ("July Stableford", "Standard Event"),
   ("August Stableford (Red Tee)", "Standard Event"),
   ("August Medal", "Elevated Event"),
   ("August Stableford", "Standard Event"),
   ("Mid Sussex Masters", "Major"),
   ("September Stableford", "Standard Event")]

/-- `POINTS_TABLE` (`app.py` lines 26-31). -/
def POINTS_TABLE : List (String × List Int) :=
  [("Standard Event", [300, 180, 114, 81, 66, 60, 54, 51, 48, 45, 42, 39, 36, 34, 33, 32]),
   ("Elevated Event", [550, 330, 209, 149, 121, 110, 99, 94, 88, 83, 77, 72, 66, 63, 61, 58]),
   ("Major", [750, 450, 285, 203, 165, 150, 135, 128, 120, 113, 105, 98, 90, 86, 83, 80]),
   ("Playoff Event", [1200, 720, 456, 324, 264, 240, 216, 204, 192, 180, 168, 156, 144, 137, 132, 127])]

/-- Python `POINTS_TABLE.get(event_type, [])`. -/
def points_table_get (event_type : String) : List Int :=
  match POINTS_TABLE.find? (fun p => p.1 == event_type) with
  | some p => p.2
  | none => []

/-- Embedding of `calculate_points` (`app.py` lines 117-119): the guard
`1 <= position <= len(table)` precedes the indexing `table[position - 1]`,
so indexing only happens in bounds and every other position yields 0. -/
def calculate_points (event_type : String) (position : Int) : Int :=
  let table := points_table_get event_type
  if 1 ≤ position ∧ position ≤ (table.length : Int) then
    table.getD (position - 1).toNat 0
  else 0

/-- Per-event data as handed to the aggregator: the Python dict
`{sheet_name: DataFrame}` as an association list. -/
abbrev EventData := List (String × List ResultRow)

/-- Python `event_data.get(sheet_name, pd.DataFrame())` followed by the
`df.empty` skip: a missing sheet behaves as an empty result list. -/
def data_get (event_data : EventData) (sheet : String) : List ResultRow :=
  match event_data.find? (fun p => p.1 == sheet) with
  | some p => p.2
  | none => []

/-- One accumulated player: the entry of `player_points` together with its
`event_breakdown` list (`app.py` lines 122-123, 144-146). -/
structure PlayerAgg where
  name : String
  points : Int
  events : List (String × Int)
deriving DecidableEq, Repr

/-- The defaultdict update `player_points[name] += pts` together with
`event_breakdown[name].append((sheet_name, pts))`: the first entry with the
key is updated in place, a missing key is appended with initial total 0. -/
def add_points (acc : List PlayerAgg) (name sheet : String) (pts : Int) : List PlayerAgg :=
  match acc with
  | [] => [⟨name, pts, [(sheet, pts)]⟩]
  | a :: rest =>
    if a.name = name then ⟨a.name, a.points + pts, a.events ++ [(sheet, pts)]⟩ :: rest
    else a :: add_points rest name sheet pts

/-- The body of the row loop of `aggregate_points` (`app.py` lines
130-139): strip the name, parse the position, skip the row when it does
not parse, otherwise add `calculate_points` for the event tier under the
stripped name. -/
def agg_row_step (p : String × String) (acc2 : List PlayerAgg) (row : ResultRow) :
    List PlayerAgg :=
  match parse_position (.str row.position) with
  | none => acc2
  | some pos => add_points acc2 (pyStrip row.name) p.1 (calculate_points p.2 pos)

/-- The accumulation loop of `aggregate_points` (`app.py` lines 125-139)
over an explicit list of configured events. -/
def aggregate_pass (events : List (String × String)) (event_data : EventData) : List PlayerAgg :=
  events.foldl (fun acc p => (data_get event_data p.1).foldl (agg_row_step p) acc) []

/-- Descending-points order used by `sort_values("Points", ascending=False)`. -/
def ptsGE (a b : PlayerAgg) : Prop := b.points ≤ a.points

instance : DecidableRel ptsGE := fun a b => Int.decLe b.points a.points

/-- Embedding of `aggregate_points` (`app.py` lines 121-148) over an
explicit configured event list.  When no player accumulated an entry the
empty frame with columns is returned (line 142); otherwise the accumulated
players are filtered to entrants with strictly positive totals and sorted
by points descending; when that filter leaves nothing,
`pd.DataFrame([]).sort_values("Points")` raises a `KeyError`, modelled as
`Except.error`. -/
def aggregate_points_over (events : List (String × String)) (event_data : EventData)
    (entrants_list : List String) : Except String (List PlayerAgg) :=
  let player_points := aggregate_pass events event_data
  if player_points.isEmpty then .ok []
  else
    let rows := player_points.filter
      (fun a => decide (a.name ∈ entrants_list ∧ 0 < a.points))
    if rows.isEmpty then .error "KeyError: Points"
    else .ok (List.insertionSort ptsGE rows)

/-- `aggregate_points` as called in `app.py`, over the configured
`EVENT_TABS`. -/
def aggregate_points (event_data : EventData) (entrants_list : List String) :
    Except String (List PlayerAgg) :=
  aggregate_points_over EVENT_TABS event_data entrants_list

/-- The rank column assignment `leaderboard_df["Position"] =
leaderboard_df.index + 1` (`app.py` line 271): each row is annotated with
its 1-based index. -/
def leaderboard_positions (lb : List PlayerAgg) : List (Nat × PlayerAgg) :=
  lb.enum.map (fun p => (p.1 + 1, p.2))

/-- `load_event_results` result with the exception absorbed to an empty
frame, as in the `except` branch of `load_all_event_data` (line 63). -/
def load_or_empty (fetch : String → Except String (List (List String)))
    (sheet : String) : List ResultRow :=
  match load_event_results fetch sheet with
  | .ok df => df
  | .error _ => []

/-- Embedding of `load_all_event_data` (`app.py` lines 55-65): every
configured sheet is loaded; a per-sheet failure is absorbed into an empty
frame and recorded as a warning, so the function itself never fails. -/
def load_all_event_data (fetch : String → Except String (List (List String))) :
    EventData × List String :=
  (EVENT_TABS.map (fun p => (p.1, load_or_empty fetch p.1)),
   EVENT_TABS.filterMap (fun p =>
     match load_event_results fetch p.1 with
     | .ok _ => none
     | .error err => some ("Failed to load " ++ p.1 ++ ": " ++ err)))

/-- One scoring contribution: (accumulation key, sheet name, points). -/
def row_contrib (p : String × String) (row : ResultRow) : Option (String × String × Int) :=
  (parse_position (.str row.position)).map
    (fun pos => (pyStrip row.name, p.1, calculate_points p.2 pos))

/-- All scoring contributions of a configured event list, in processing
order. -/
def contribs : List (String × String) → EventData → List (String × String × Int)
  | [], _ => []
  | p :: rest, d => (data_get d p.1).filterMap (row_contrib p) ++ contribs rest d

/-- Total of the contributions carrying a given key. -/
def totalOf : List (String × String × Int) → String → Int
  | [], _ => 0
  | t :: rest, name => (if t.1 = name then t.2.2 else 0) + totalOf rest name

/-- The total points a player name earns over a configured event list:
the sum, over all configured events and all rows of that event whose
position parses, of the scheduled points, keyed by the stripped name. -/
def total_points (events : List (String × String)) (d : EventData) (name : String) : Int :=
  totalOf (contribs events d) name

/-- The configured event list with one event removed: the event set of the
N-1 surviving events of a partial-failure run. -/
def events_except : List (String × String) → String → List (String × String)
  | [], _ => []
  | p :: rest, e => if p.1 = e then events_except rest e else p :: events_except rest e

instance : IsTotal PlayerAgg ptsGE :=
  ⟨fun a b => le_total b.points a.points⟩

instance : IsTrans PlayerAgg ptsGE :=
  ⟨fun _ _ _ h1 h2 => le_trans h2 h1⟩

/-- Concrete per-event data for exercising the aggregator: one event with
two scored rows. -/
def sample_event_data : EventData :=
  [("May Stableford", [⟨"1", "Alice", "40"⟩, ⟨"2", "Bob", "40"⟩])]

/-- Concrete entrants list matching `sample_event_data`. -/
def sample_entrants : List String := ["Alice", "Bob"]

/-- The leaderboard the aggregator produces on `sample_event_data`. -/
def sample_leaderboard : List PlayerAgg :=
  [⟨"Alice", 300, [("May Stableford", 300)]⟩, ⟨"Bob", 180, [("May Stableford", 180)]⟩]

/-- Concrete fetch whose "May Stableford" load fails and every other load
returns an empty grid. -/
def sample_failing_fetch : String → Except String (List (List String)) :=
  fun s => if s == "May Stableford" then .error "boom" else .ok []

/-- Names of the accumulated players, in insertion order. -/
def agg_names (acc : List PlayerAgg) : List String :=
  acc.map PlayerAgg.name

/-- Lookup of a player in the accumulator (first entry with the name). -/
def find_agg (acc : List PlayerAgg) (name : String) : Option PlayerAgg :=
  acc.find? (fun a => a.name == name)

/-- Accumulated total of a name, 0 when absent (defaultdict semantics). -/
def pts_of (acc : List PlayerAgg) (name : String) : Int :=
  ((find_agg acc name).map PlayerAgg.points).getD 0

/-- One accumulation step over a contribution triple. -/
def agg_step (acc : List PlayerAgg) (t : String × String × Int) : List PlayerAgg :=
  add_points acc t.1 t.2.1 t.2.2

/-- Folding the accumulation over a contribution list. -/
def accum (l : List (String × String × Int)) (acc : List PlayerAgg) : List PlayerAgg :=
  l.foldl agg_step acc

theorem pts_of_nil (name : String) : pts_of [] name = 0 := rfl

theorem agg_names_nil : agg_names [] = [] := rfl

theorem agg_names_cons (a : PlayerAgg) (rest : List PlayerAgg) :
    agg_names (a :: rest) = a.name :: agg_names rest := rfl

theorem pts_of_cons (a : PlayerAgg) (rest : List PlayerAgg) (name : String) :
    pts_of (a :: rest) name = if a.name = name then a.points else pts_of rest name := by
  unfold pts_of find_agg
  by_cases h : a.name = name
  · rw [List.find?_cons_of_pos _ (by simpa using h), if_pos h]
    rfl
  · rw [List.find?_cons_of_neg _ (by simpa using h), if_neg h]

theorem pts_of_add_points (acc : List PlayerAgg) (n s : String) (p : Int) (name : String) :
    pts_of (add_points acc n s p) name = pts_of acc name + (if name = n then p else 0) := by
  induction acc with
  | nil =>
    rw [add_points, pts_of_cons, pts_of_nil]
    by_cases h : name = n
    · subst h
      simp
    · rw [if_neg (fun hh => h hh.symm), if_neg h, add_zero]
  | cons a rest ih =>
    by_cases ha : a.name = n
    · rw [add_points, if_pos ha]
      by_cases hn : name = n
      · subst hn
        rw [pts_of_cons, pts_of_cons, if_pos rfl]
        rw [show (⟨a.name, a.points + p, a.events ++ [(s, p)]⟩ : PlayerAgg).name = a.name
          from rfl, if_pos ha, if_pos ha]
      · have hne : ¬ (a.name = name) := fun hh => hn (hh.symm.trans ha)
        rw [pts_of_cons, pts_of_cons, if_neg hne, if_neg hn, add_zero]
        rw [show (⟨a.name, a.points + p, a.events ++ [(s, p)]⟩ : PlayerAgg).name = a.name
          from rfl, if_neg hne]
    · rw [add_points, if_neg ha]
      by_cases hh : a.name = name
      · have hn : ¬ (name = n) := fun h2 => ha (hh.trans h2)
        rw [pts_of_cons, pts_of_cons, if_pos hh, if_pos hh, if_neg hn, add_zero]
      · rw [pts_of_cons, pts_of_cons, if_neg hh, if_neg hh, ih]

theorem agg_names_add_points (acc : List PlayerAgg) (n s : String) (p : Int) :
    agg_names (add_points acc n s p) =
      if n ∈ agg_names acc then agg_names acc else agg_names acc ++ [n] := by
  induction acc with
  | nil =>
    rw [add_points, agg_names_cons, agg_names_nil, if_neg (List.not_mem_nil n)]
    rfl
  | cons a rest ih =>
    by_cases ha : a.name = n
    · rw [add_points, if_pos ha]
      have hmem : n ∈ agg_names (a :: rest) := by
        rw [agg_names_cons, ha]
        exact List.mem_cons_self _ _
      rw [if_pos hmem, agg_names_cons, agg_names_cons]
    · rw [add_points, if_neg ha, agg_names_cons, agg_names_cons, ih]
      by_cases hm : n ∈ agg_names rest
      · rw [if_pos hm]
        have hmem : n ∈ a.name :: agg_names rest := List.mem_cons_of_mem _ hm
        rw [if_pos hmem]
      · rw [if_neg hm]
        have hmem : ¬ n ∈ a.name :: agg_names rest := by
          intro hcon
          rcases List.mem_cons.mp hcon with h1 | h1
          · exact ha h1.symm
          · exact hm h1
        rw [if_neg hmem, List.cons_append]

theorem mem_agg_names_add_points (acc : List PlayerAgg) (n s : String) (p : Int)
    (x : String) :
    x ∈ agg_names (add_points acc n s p) ↔ x ∈ agg_names acc ∨ x = n := by
  rw [agg_names_add_points]
  by_cases hm : n ∈ agg_names acc
  · rw [if_pos hm]
    constructor
    · exact Or.inl
    · rintro (h | h)
      · exact h
      · exact h ▸ hm
  · rw [if_neg hm]
    simp

theorem nodup_agg_names_add_points (acc : List PlayerAgg) (n s : String) (p : Int)
    (h : (agg_names acc).Nodup) : (agg_names (add_points acc n s p)).Nodup := by
  rw [agg_names_add_points]
  by_cases hm : n ∈ agg_names acc
  · rwa [if_pos hm]
  · rw [if_neg hm]
    rw [List.nodup_append]
    exact ⟨h, List.nodup_singleton n, by simpa [List.disjoint_singleton] using hm⟩

theorem pts_of_accum (l : List (String × String × Int)) (acc : List PlayerAgg)
    (name : String) :
    pts_of (accum l acc) name = pts_of acc name + totalOf l name := by
  induction l generalizing acc with
  | nil => simp [accum, totalOf]
  | cons t rest ih =>
    rw [show accum (t :: rest) acc = accum rest (agg_step acc t) from rfl, ih, totalOf]
    rw [agg_step, pts_of_add_points]
    by_cases h : t.1 = name
    · rw [if_pos h, if_pos h.symm]
      ring
    · rw [if_neg h, if_neg (fun hh => h hh.symm)]
      ring

theorem mem_agg_names_accum (l : List (String × String × Int)) (acc : List PlayerAgg)
    (x : String) :
    x ∈ agg_names (accum l acc) ↔ x ∈ agg_names acc ∨ x ∈ l.map (fun t => t.1) := by
  induction l generalizing acc with
  | nil => simp [accum]
  | cons t rest ih =>
    rw [show accum (t :: rest) acc = accum rest (agg_step acc t) from rfl, ih]
    rw [agg_step, mem_agg_names_add_points, List.map_cons, List.mem_cons]
    tauto

theorem nodup_agg_names_accum (l : List (String × String × Int)) (acc : List PlayerAgg)
    (h : (agg_names acc).Nodup) : (agg_names (accum l acc)).Nodup := by
  induction l generalizing acc with
  | nil => exact h
  | cons t rest ih =>
    exact ih _ (nodup_agg_names_add_points _ _ _ _ h)

theorem find_agg_of_nodup (acc : List PlayerAgg) (h : (agg_names acc).Nodup)
    (a : PlayerAgg) (ha : a ∈ acc) : find_agg acc a.name = some a := by
  induction acc with
  | nil => cases ha
  | cons b rest ih =>
    rw [agg_names_cons, List.nodup_cons] at h
    rcases List.mem_cons.mp ha with hb | hb
    · subst hb
      unfold find_agg
      rw [List.find?_cons_of_pos _ (by simp)]
    · have h1 : a.name ∈ agg_names rest := List.mem_map_of_mem PlayerAgg.name hb
      have hbn : ¬ (b.name = a.name) := fun h3 => h.1 (h3 ▸ h1)
      unfold find_agg
      rw [List.find?_cons_of_neg _ (by simpa using hbn)]
      exact ih h.2 hb

theorem totalOf_eq_zero_of_not_mem (l : List (String × String × Int)) (name : String)
    (h : ¬ name ∈ l.map (fun t => t.1)) : totalOf l name = 0 := by
  induction l with
  | nil => rfl
  | cons t rest ih =>
    rw [List.map_cons, List.mem_cons] at h
    push_neg at h
    rw [totalOf, if_neg (fun hh => h.1 hh.symm), ih h.2, add_zero]

theorem row_fold_eq_accum (p : String × String) (rows : List ResultRow)
    (acc : List PlayerAgg) :
    rows.foldl (agg_row_step p) acc = accum (rows.filterMap (row_contrib p)) acc := by
  induction rows generalizing acc with
  | nil => rfl
  | cons row rest ih =>
    rw [List.foldl_cons]
    cases hp : parse_position (.str row.position) with
    | none =>
      have h1 : row_contrib p row = none := by rw [row_contrib, hp]; rfl
      have h2 : agg_row_step p acc row = acc := by rw [agg_row_step, hp]
      rw [h2, List.filterMap_cons, h1]
      exact ih acc
    | some pos =>
      have h1 : row_contrib p row =
          some (pyStrip row.name, p.1, calculate_points p.2 pos) := by
        rw [row_contrib, hp]; rfl
      have h2 : agg_row_step p acc row =
          add_points acc (pyStrip row.name) p.1 (calculate_points p.2 pos) := by
        rw [agg_row_step, hp]
      rw [h2, List.filterMap_cons, h1]
      exact ih _

theorem aggregate_pass_eq_accum (events : List (String × String)) (d : EventData) :
    aggregate_pass events d = accum (contribs events d) [] := by
  suffices h : ∀ acc, events.foldl (fun acc p => (data_get d p.1).foldl (agg_row_step p) acc) acc
      = accum (contribs events d) acc from h []
  induction events with
  | nil => intro acc; rfl
  | cons p rest ih =>
    intro acc
    rw [List.foldl_cons, ih, row_fold_eq_accum, contribs]
    rw [accum, accum, accum, List.foldl_append]

theorem pts_of_aggregate_pass (events : List (String × String)) (d : EventData)
    (name : String) :
    pts_of (aggregate_pass events d) name = total_points events d name := by
  rw [aggregate_pass_eq_accum, pts_of_accum, pts_of_nil, zero_add]
  rfl

theorem mem_agg_names_aggregate_pass (events : List (String × String)) (d : EventData)
    (x : String) :
    x ∈ agg_names (aggregate_pass events d) ↔ x ∈ (contribs events d).map (fun t => t.1) := by
  rw [aggregate_pass_eq_accum, mem_agg_names_accum]
  simp [agg_names]

theorem nodup_agg_names_aggregate_pass (events : List (String × String)) (d : EventData) :
    (agg_names (aggregate_pass events d)).Nodup := by
  rw [aggregate_pass_eq_accum]
  exact nodup_agg_names_accum _ _ List.nodup_nil

theorem points_eq_total_of_mem_aggregate_pass (events : List (String × String))
    (d : EventData) (a : PlayerAgg) (ha : a ∈ aggregate_pass events d) :
    a.points = total_points events d a.name := by
  have h1 := find_agg_of_nodup _ (nodup_agg_names_aggregate_pass events d) a ha
  have h2 := pts_of_aggregate_pass events d a.name
  rw [pts_of, h1] at h2
  simpa using h2

theorem total_eq_zero_of_not_appearing (events : List (String × String)) (d : EventData)
    (name : String) (h : ¬ name ∈ (contribs events d).map (fun t => t.1)) :
    total_points events d name = 0 :=
  totalOf_eq_zero_of_not_mem _ _ h

theorem contribs_events_except (events : List (String × String)) (d : EventData)
    (e : String) (hd : data_get d e = []) :
    contribs events d = contribs (events_except events e) d := by
  induction events with
  | nil => rfl
  | cons p rest ih =>
    by_cases hp : p.1 = e
    · rw [contribs, hp, hd, List.filterMap_nil, List.nil_append, ih]
      rw [events_except, if_pos hp]
    · rw [contribs, ih, events_except, if_neg hp, contribs]

theorem data_get_map_keys (ks : List (String × String)) (g : String → List ResultRow)
    (e : String) :
    data_get (ks.map (fun p => (p.1, g p.1))) e =
      if e ∈ ks.map Prod.fst then g e else [] := by
  induction ks with
  | nil => simp [data_get]
  | cons k rest ih =>
    rw [List.map_cons, List.map_cons]
    by_cases hk : k.1 = e
    · rw [show data_get ((k.1, g k.1) :: List.map (fun p => (p.1, g p.1)) rest) e = g k.1
        from by
          unfold data_get
          rw [List.find?_cons_of_pos _ (by simpa using hk)]]
      rw [if_pos (by rw [hk]; exact List.mem_cons_self _ _), hk]
    · rw [show data_get ((k.1, g k.1) :: List.map (fun p => (p.1, g p.1)) rest) e
          = data_get (List.map (fun p => (p.1, g p.1)) rest) e from by
          unfold data_get
          rw [List.find?_cons_of_neg _ (by simpa using hk)]]
      rw [ih]
      by_cases hm : e ∈ rest.map Prod.fst
      · rw [if_pos hm, if_pos (List.mem_cons_of_mem _ hm)]
      · rw [if_neg hm, if_neg (by
          intro hcon
          rcases List.mem_cons.mp hcon with h1 | h1
          · exact hk h1.symm
          · exact hm h1)]

theorem aggregate_points_over_congr_pass (events1 events2 : List (String × String))
    (d : EventData) (ent : List String)
    (h : aggregate_pass events1 d = aggregate_pass events2 d) :
    aggregate_points_over events1 d ent = aggregate_points_over events2 d ent := by
  unfold aggregate_points_over
  rw [h]

theorem map_fst_enumFrom_ranks (l : List PlayerAgg) : ∀ n : Nat,
    ((List.enumFrom n l).map (fun p => (p.1 + 1, p.2))).map Prod.fst
      = List.range' (n + 1) l.length := by
  induction l with
  | nil => intro n; rfl
  | cons a rest ih =>
    intro n
    show (n + 1) :: ((List.enumFrom (n + 1) rest).map (fun p => (p.1 + 1, p.2))).map Prod.fst
      = List.range' (n + 1) (rest.length + 1)
    rw [ih (n + 1)]
    rfl

theorem leaderboard_positions_ranks (lb : List PlayerAgg) :
    (leaderboard_positions lb).map Prod.fst = List.range' 1 lb.length :=
  map_fst_enumFrom_ranks lb 0

theorem digitsVal_nonneg (l : List Char) : 0 ≤ digitsVal l := by
  suffices h : ∀ acc : Int, 0 ≤ acc →
      0 ≤ l.foldl (fun acc c => acc * 10 + ((c.toNat - 48 : Nat) : Int)) acc from h 0 le_rfl
  induction l with
  | nil => intro acc hacc; exact hacc
  | cons c rest ih =>
    intro acc hacc
    rw [List.foldl_cons]
    exact ih _ (by positivity)

theorem parse_position_str_nonneg (s : String) :
    0 ≤ (parse_position (.str s)).getD 0 := by
  rw [parse_position]
  cases h : (pyStrip s).data.takeWhile Char.isDigit with
  | nil => simp
  | cons c rest =>
    simpa using digitsVal_nonneg (c :: rest)


/-- C3: for every tier present in the points schedule and every integer
rank r, `calculate_points` returns the (r-1)-indexed entry of the tier's
list when 1 ≤ r ≤ its length and 0 when r exceeds the length; for a tier
not present in the schedule it returns 0 for every rank; being a total
function of the embedding, it raises in neither case. -/
theorem c3_points_lookup :
    (∀ p ∈ POINTS_TABLE, ∀ r : Int,
        (1 ≤ r → r ≤ (p.2.length : Int) → calculate_points p.1 r = p.2.getD (r - 1).toNat 0)
        ∧ ((p.2.length : Int) < r → calculate_points p.1 r = 0))
    ∧ (∀ T : String, POINTS_TABLE.find? (fun q => q.1 == T) = none →
        ∀ r : Int, calculate_points T r = 0) := by
  constructor
  · intro p hp r
    have htab : points_table_get p.1 = p.2 := by
      fin_cases hp <;> rfl
    constructor
    · intro h1 h2
      simp only [calculate_points, htab]
      rw [if_pos ⟨h1, h2⟩]
    · intro h
      simp only [calculate_points, htab]
      rw [if_neg (fun hc => absurd h (not_lt.mpr hc.2))]
  · intro T hT r
    have htab : points_table_get T = [] := by rw [points_table_get, hT]
    simp only [calculate_points, htab]
    rw [if_neg (fun hc => by
      have := le_trans hc.1 hc.2
      simp at this)]

/-- Witness for C3 at concrete inputs: an in-range rank of a known tier, a
rank past the table, and an unknown tier. -/
theorem c3_points_lookup_witness :
    calculate_points "Major" 2 = 450 ∧ calculate_points "Major" 17 = 0 ∧
      calculate_points "Turbo Event" 3 = 0 := by
  refine ⟨?_, ?_, ?_⟩
  · have h := ((c3_points_lookup.1
      ("Major", [750, 450, 285, 203, 165, 150, 135, 128, 120, 113, 105, 98, 90, 86, 83, 80])
      (by decide)) 2).1 (by decide) (by decide)
    exact h.trans (by decide)
  · exact ((c3_points_lookup.1
      ("Major", [750, 450, 285, 203, 165, 150, 135, 128, 120, 113, 105, 98, 90, 86, 83, 80])
      (by decide)) 17).2 (by decide)
  · exact (c3_points_lookup.2 "Turbo Event" (by decide)) 3

/-- C10: the lookup is total over all integer positions; every position
below 1 takes the else-branch of the guard, which precedes the list
indexing, and yields 0 — no wrap-around indexing can occur. -/
theorem c10_nonpositive_position_zero (event_type : String) (position : Int)
    (h : position < 1) : calculate_points event_type position = 0 := by
  simp only [calculate_points]
  rw [if_neg (fun hc => absurd hc.1 (not_le.mpr h))]

/-- Witness for C10 at positions 0 and -1. -/
theorem c10_nonpositive_position_zero_witness :
    calculate_points "Playoff Event" 0 = 0 ∧ calculate_points "Standard Event" (-1) = 0 :=
  ⟨c10_nonpositive_position_zero "Playoff Event" 0 (by decide),
   c10_nonpositive_position_zero "Standard Event" (-1) (by decide)⟩

/-- C4 counterexample: the claim says a numeric, integral cell ≥ 1 such as
the number 3 is returned; the parser instead returns no value for every
non-string cell (`if not isinstance(pos_str, str): return None`). -/
theorem c4_numeric_cell_counterexample : parse_position (.num 3) = none := rfl

/-- C4 as amended: the Position Parser returns a value only for string
cells; every numeric cell and the absent cell yield no value. -/
theorem c4_numeric_cells_rejected :
    (∀ n : Int, parse_position (.num n) = none) ∧ parse_position .null = none :=
  ⟨fun _ => rfl, rfl⟩

/-- C5 counterexample: the claim says the parsed number is returned only
when ≥ 1; the code has no such check, so the string "0" parses to 0,
which is not a positive integer. -/
theorem c5_zero_counterexample : parse_position (.str "0") = some 0 := by decide

/-- C5 as amended: surrounding whitespace and trailing non-digit content
are ignored, the leading digit run is extracted, and its value is
returned whenever the run is non-empty — including the value 0 — so every
returned value is nonnegative (not necessarily positive); the claimed
concrete examples all hold. -/
theorem c5_string_parsing :
    parse_position (.str "1st") = some 1 ∧ parse_position (.str "10th") = some 10 ∧
    parse_position (.str "3") = some 3 ∧ parse_position (.str "") = none ∧
    parse_position (.str "DNF") = none ∧ parse_position (.str "  7th  ") = some 7 ∧
    parse_position (.str "0") = some 0 ∧
    (∀ s : String, 0 ≤ (parse_position (.str s)).getD 0) :=
  ⟨by decide, by decide, by decide, by decide, by decide, by decide, by decide,
   parse_position_str_nonneg⟩

/-- C6 counterexample: the claim says the two-column block yields the
normalized result (name "Alice", position 2); the code instead discards
the whole block, because its first row has fewer than 4 columns. -/
theorem c6_two_column_counterexample : normalize_rows [["  Alice  ", "2nd"]] = [] := by decide

/-- C6 as amended: the Row Normalizer rejects the two-column layout — any
block whose first row has fewer than four columns yields an empty result
set, its rows discarded along with it. -/
theorem c6_short_first_row_rejected (first : List String) (rest : List (List String))
    (h : first.length < 4) : normalize_rows (first :: rest) = [] := by
  rw [normalize_rows, if_pos h]

/-- Witness for C6 as amended: a 3-column first row discards the block
even when a later row has 4 columns. -/
theorem c6_short_first_row_rejected_witness :
    normalize_rows [["a", "b", "c"], ["x", "1", "h", "40"]] = [] :=
  c6_short_first_row_rejected ["a", "b", "c"] [["x", "1", "h", "40"]] (by decide)

/-- C7 counterexample: the claim says the row ["Bob(12)", "1", "40"]
yields name "Bob", handicap 12, position 1, score 40; the code yields
nothing for it (3-column first row, block rejected), and no handicap
splitting exists anywhere in the pipeline. -/
theorem c7_handicap_counterexample : normalize_rows [["Bob(12)", "1", "40"]] = [] := by decide

/-- C7 as amended: the combined name(handicap) cell is never split — the
normalized row has no handicap field at all, the full cell string
including the parenthesized digits is kept as the name in a 4-column row,
and the 3-column row of the claim is discarded entirely. -/
theorem c7_no_handicap_split :
    normalize_rows [["Bob(12)", "1", "40"]] = [] ∧
    normalize_rows [["Bob(12)", "1", "12", "40"]] = [⟨"1", "Bob(12)", "40"⟩] :=
  ⟨by decide, by decide⟩

/-- C8 counterexample: the claim says the empty-string player name never
accumulates points or appears in any aggregate; a 4-column row with an
empty name survives normalization, scores 300 points for rank 1 in a
Standard Event, and appears on the leaderboard when "" is entered. -/
theorem c8_empty_name_counterexample :
    aggregate_points [("May Stableford", [⟨"1", "", "40"⟩])] [""] =
      .ok [⟨"", 300, [("May Stableford", 300)]⟩] := rfl

/-- C8 as amended: names are trimmed, and the two-column row ["", "1"] is
indeed dropped — but only because every row with fewer than four columns
is dropped; an empty-after-trim name in a four-column row is kept as a
normalized result and can accumulate a positive total. -/
theorem c8_empty_name_kept :
    normalize_rows [["", "1"]] = [] ∧
    normalize_rows [["  Bob  ", "1", "h", "40"]] = [⟨"1", "Bob", "40"⟩] ∧
    normalize_rows [["x", "1", "h", "40"], ["", "2", "h", "40"]] =
      [⟨"1", "x", "40"⟩, ⟨"2", "", "40"⟩] ∧
    (0 : Int) < total_points EVENT_TABS [("May Stableford", [⟨"1", "", "40"⟩])] "" :=
  ⟨by decide, by decide, by decide, by decide⟩

/-- C9 counterexample: the claim says the Aggregator completes and
returns a leaderboard for every non-empty configured event set; with the
configured 12-event set, one accumulated player and an empty entrants
list, the post-filter row list is empty and
`pd.DataFrame([]).sort_values("Points")` raises a KeyError. -/
theorem c9_raises_counterexample :
    aggregate_points [("May Stableford", [⟨"1", "X", "40"⟩])] [] =
      .error "KeyError: Points" := rfl

/-- C9 as amended: the Aggregator never raises when no player accumulates
an entry — in particular an empty configured event set returns an empty
leaderboard rather than raising — and it raises exactly when at least one
player accumulated an entry but none passes the entrants-and-positive-
points filter. -/
theorem c9_error_characterization (events : List (String × String)) (d : EventData)
    (ent : List String) :
    (aggregate_points_over events d ent = .error "KeyError: Points"
      ↔ (aggregate_pass events d ≠ [] ∧
          (aggregate_pass events d).filter
            (fun a => decide (a.name ∈ ent ∧ 0 < a.points)) = []))
    ∧ aggregate_points_over [] d ent = .ok [] := by
  refine ⟨?_, rfl⟩
  simp only [aggregate_points_over]
  cases h1 : (aggregate_pass events d).isEmpty with
  | true =>
    have hnil : aggregate_pass events d = [] := by
      cases hl : aggregate_pass events d with
      | nil => rfl
      | cons a rest => rw [hl] at h1; cases h1
    rw [if_pos rfl]
    constructor
    · intro hc
      exact Except.noConfusion hc
    · rintro ⟨h3, _⟩
      exact absurd hnil h3
  | false =>
    have hne : aggregate_pass events d ≠ [] := by
      intro hc
      rw [hc] at h1
      cases h1
    cases h2 : ((aggregate_pass events d).filter
        (fun a => decide (a.name ∈ ent ∧ 0 < a.points))).isEmpty with
    | true =>
      have hfil : (aggregate_pass events d).filter
          (fun a => decide (a.name ∈ ent ∧ 0 < a.points)) = [] := by
        cases hl : (aggregate_pass events d).filter
            (fun a => decide (a.name ∈ ent ∧ 0 < a.points)) with
        | nil => rfl
        | cons a rest => rw [hl] at h2; cases h2
      rw [if_neg Bool.false_ne_true, if_pos rfl]
      exact ⟨fun _ => ⟨hne, hfil⟩, fun _ => rfl⟩
    | false =>
      have hfil : (aggregate_pass events d).filter
          (fun a => decide (a.name ∈ ent ∧ 0 < a.points)) ≠ [] := by
        intro hc
        rw [hc] at h2
        cases h2
      rw [if_neg Bool.false_ne_true, if_neg Bool.false_ne_true]
      constructor
      · intro hc
        exact Except.noConfusion hc
      · rintro ⟨_, h4⟩
        exact absurd h4 hfil

/-- C1: whenever the Aggregator returns a leaderboard, it contains
exactly those player names — accumulated under the stripped,
case-sensitive exact-match key — whose total points over all configured
events are strictly positive and that appear in the entrants list; each
row carries that accumulated total; rows are sorted by total points
descending; and the rank column equals the 1-based position in the sorted
sequence, so tied players receive distinct sequential ranks. -/
theorem c1_leaderboard_contents (d : EventData) (entrants : List String)
    (lb : List PlayerAgg) (h : aggregate_points d entrants = .ok lb) :
    (∀ name : String,
        name ∈ agg_names lb ↔ (name ∈ entrants ∧ 0 < total_points EVENT_TABS d name))
    ∧ (∀ a ∈ lb, a.points = total_points EVENT_TABS d a.name)
    ∧ List.Sorted ptsGE lb
    ∧ (leaderboard_positions lb).map Prod.fst = List.range' 1 lb.length := by
  rw [aggregate_points] at h
  simp only [aggregate_points_over] at h
  by_cases hnil : aggregate_pass EVENT_TABS d = []
  · rw [if_pos (by rw [hnil]; rfl)] at h
    have hlb : lb = [] := by
      injection h with h2
      exact h2.symm
    subst hlb
    refine ⟨?_, fun a ha => absurd ha (List.not_mem_nil a), List.sorted_nil, rfl⟩
    intro name
    constructor
    · intro hmem
      exact absurd hmem (List.not_mem_nil name)
    · rintro ⟨_, hpos⟩
      exfalso
      have hz : total_points EVENT_TABS d name = 0 := by
        apply total_eq_zero_of_not_appearing
        intro hc
        have hmem := (mem_agg_names_aggregate_pass EVENT_TABS d name).mpr hc
        rw [hnil] at hmem
        exact List.not_mem_nil _ hmem
      rw [hz] at hpos
      exact lt_irrefl 0 hpos
  · have hcond : ¬ ((aggregate_pass EVENT_TABS d).isEmpty = true) := by
      intro hc
      cases hl : aggregate_pass EVENT_TABS d with
      | nil => exact hnil hl
      | cons a rest => rw [hl] at hc; cases hc
    rw [if_neg hcond] at h
    set rows := (aggregate_pass EVENT_TABS d).filter
      (fun a => decide (a.name ∈ entrants ∧ 0 < a.points)) with hrows
    by_cases hR : rows.isEmpty = true
    · rw [if_pos hR] at h
      exact Except.noConfusion h
    · rw [if_neg hR] at h
      have hlb : lb = List.insertionSort ptsGE rows := by
        injection h with h2
        exact h2.symm
      have hperm : List.Perm lb rows := hlb ▸ List.perm_insertionSort ptsGE rows
      refine ⟨?_, ?_, ?_, leaderboard_positions_ranks lb⟩
      · intro name
        constructor
        · intro hmem
          rcases List.mem_map.mp hmem with ⟨a, halb, hname⟩
          have harows : a ∈ rows := hperm.mem_iff.mp halb
          have hfilter := List.mem_filter.mp harows
          have hcondA : a.name ∈ entrants ∧ 0 < a.points := of_decide_eq_true hfilter.2
          have hpts := points_eq_total_of_mem_aggregate_pass EVENT_TABS d a hfilter.1
          subst hname
          exact ⟨hcondA.1, hpts ▸ hcondA.2⟩
        · rintro ⟨hent, hpos⟩
          have happ : name ∈ (contribs EVENT_TABS d).map (fun t => t.1) := by
            by_contra hc
            rw [total_eq_zero_of_not_appearing EVENT_TABS d name hc] at hpos
            exact lt_irrefl 0 hpos
          have hmemp := (mem_agg_names_aggregate_pass EVENT_TABS d name).mpr happ
          rcases List.mem_map.mp hmemp with ⟨a, hap, hname⟩
          have hpts := points_eq_total_of_mem_aggregate_pass EVENT_TABS d a hap
          have hposA : 0 < a.points := by
            rw [hpts, hname]
            exact hpos
          have harows : a ∈ rows :=
            List.mem_filter.mpr ⟨hap, decide_eq_true ⟨hname ▸ hent, hposA⟩⟩
          exact List.mem_map.mpr ⟨a, hperm.mem_iff.mpr harows, hname⟩
      · intro a ha
        have harows := hperm.mem_iff.mp ha
        exact points_eq_total_of_mem_aggregate_pass EVENT_TABS d a (List.mem_filter.mp harows).1
      · rw [hlb]
        exact List.sorted_insertionSort ptsGE rows

/-- Witness for C1 on a concrete run: one Standard Event with Alice 1st
and Bob 2nd, both entered, yields the leaderboard Alice 300, Bob 180. -/
theorem c1_leaderboard_contents_witness :
    ("Alice" ∈ agg_names sample_leaderboard ↔
      ("Alice" ∈ sample_entrants ∧ 0 < total_points EVENT_TABS sample_event_data "Alice"))
    ∧ List.Sorted ptsGE sample_leaderboard
    ∧ (leaderboard_positions sample_leaderboard).map Prod.fst =
        List.range' 1 sample_leaderboard.length :=
  ⟨(c1_leaderboard_contents sample_event_data sample_entrants sample_leaderboard rfl).1 "Alice",
   (c1_leaderboard_contents sample_event_data sample_entrants sample_leaderboard rfl).2.2.1,
   (c1_leaderboard_contents sample_event_data sample_entrants sample_leaderboard rfl).2.2.2⟩

/-- C2: when the fetch of one configured event fails while the batch
load runs, the batch returns an empty result set for that event, records
a warning naming it, no exception escapes `load_all_event_data` (it is a
total function), and the aggregated leaderboard equals the one computed
over the other configured events alone — the failing event contributes
nothing to any player. -/
theorem c2_partial_failure (fetch : String → Except String (List (List String)))
    (e msg : String) (entrants : List String)
    (he : e ∈ EVENT_TABS.map Prod.fst) (hf : fetch e = .error msg) :
    data_get (load_all_event_data fetch).1 e = []
    ∧ ("Failed to load " ++ e ++ ": " ++ msg) ∈ (load_all_event_data fetch).2
    ∧ aggregate_points (load_all_event_data fetch).1 entrants
        = aggregate_points_over (events_except EVENT_TABS e)
            (load_all_event_data fetch).1 entrants := by
  have hload : load_event_results fetch e = .error msg := by
    rw [load_event_results, hf]
  have hempty : load_or_empty fetch e = [] := by
    rw [load_or_empty, hload]
  have hdg : data_get (load_all_event_data fetch).1 e = [] := by
    show data_get (EVENT_TABS.map (fun p => (p.1, load_or_empty fetch p.1))) e = []
    rw [data_get_map_keys, if_pos he, hempty]
  refine ⟨hdg, ?_, ?_⟩
  · rcases List.mem_map.mp he with ⟨p, hp, hpe⟩
    refine List.mem_filterMap.mpr ⟨p, hp, ?_⟩
    show (match load_event_results fetch p.1 with
      | .ok _ => none
      | .error err => some ("Failed to load " ++ p.1 ++ ": " ++ err)) = _
    rw [show p.1 = e from hpe, hload]
  · rw [aggregate_points]
    apply aggregate_points_over_congr_pass
    rw [aggregate_pass_eq_accum, aggregate_pass_eq_accum]
    rw [contribs_events_except EVENT_TABS _ e hdg]

/-- Witness for C2: the "May Stableford" fetch fails with "boom" and all
other fetches return empty grids. -/
theorem c2_partial_failure_witness :
    data_get (load_all_event_data sample_failing_fetch).1 "May Stableford" = []
    ∧ ("Failed to load " ++ "May Stableford" ++ ": " ++ "boom")
        ∈ (load_all_event_data sample_failing_fetch).2
    ∧ aggregate_points (load_all_event_data sample_failing_fetch).1 []
        = aggregate_points_over (events_except EVENT_TABS "May Stableford")
            (load_all_event_data sample_failing_fetch).1 [] :=
  c2_partial_failure sample_failing_fetch "May Stableford" "boom" [] (by decide) rfl
